import Mathlib

/-!
Verification of the logqtt journald-to-MQTT daemon.

The definitions below are a shallow embedding of the Rust sources:
  * `LogLevel`, `LogItem` and `LogLevel.as_ref` come from src/lib.rs;
  * `systemd_priority_rankings`, `entry_to_log_item` and the adapter's
    `try_recv` come from src/journal.rs (a raw journal entry is modelled as
    a list of key/value string pairs, the iteration sequence of the
    underlying map);
  * `LogqttClient.push` with its topic and JSON payload construction comes
    from src/client.rs;
  * `loopStep` / `runMain` model one iteration, respectively the whole run,
    of the orchestrator loop in src/bin/jqtt.rs, driven by a trace of
    per-iteration observations of the environment (shutdown flag,
    connection-thread liveness, poll result, publish outcome).

System time is modelled at microsecond precision as an integer offset from
the Unix epoch; `SystemTime::checked_add` starting from the epoch succeeds
exactly when the resulting offset stays within the platform bound, which is
kept as an explicit parameter `maxMicros` (on 64-bit Linux it is
`sysTimeMaxMicros`).  `SystemTime::now()` is the explicit parameter `now`.
-/

namespace Logqtt

/-- The eight syslog severities of src/lib.rs. -/
inductive LogLevel where
  | Emergency
  | Alert
  | Critical
  | Error
  | Warning
  | Notice
  | Info
  | Debug
  deriving DecidableEq

/-- Normalized log record, `LogItem` of src/lib.rs.  The timestamp is in
microseconds relative to the Unix epoch. -/
structure LogItem where
  hostname : String
  unit : String
  timestamp : Int
  level : LogLevel
  message : String
  deriving DecidableEq

/-- Lowercase severity names, the `AsRef` impl of src/lib.rs. -/
def LogLevel.as_ref : LogLevel → String
  | .Emergency => "emergency"
  | .Alert => "alert"
  | .Critical => "critical"
  | .Error => "error"
  | .Warning => "warning"
  | .Notice => "notice"
  | .Info => "info"
  | .Debug => "debug"

/-- The fixed ordinal priority table of src/journal.rs. -/
def systemd_priority_rankings : List LogLevel :=
  [LogLevel.Emergency, LogLevel.Alert, LogLevel.Critical, LogLevel.Error,
   LogLevel.Warning, LogLevel.Notice, LogLevel.Info, LogLevel.Debug]

/-- Rust's `str::parse` for an unsigned integer of bit width `width`:
an optional leading plus sign, then one or more ASCII digits, rejecting
values that overflow the width.  Returns `none` on any parse error. -/
def parseRustNat (width : Nat) (s : String) : Option Nat :=
  let cs := match s.data with
    | '+' :: rest => rest
    | other => other
  if cs = [] then none
  else if cs.all Char.isDigit then
    let n := cs.foldl (fun acc c => 10 * acc + (c.toNat - 48)) 0
    if n < 2 ^ width then some n else none
  else none

/-- Handling of a PRIORITY value in `entry_to_log_item`:
`v.parse::<usize>()` followed by indexing into the ranking table. -/
def parsePriority (v : String) : Except String LogLevel :=
  match parseRustNat 64 v with
  | none => .error ("failed to parse priority: " ++ v)
  | some n =>
    match systemd_priority_rankings.get? n with
    | some lvl => .ok lvl
    | none => .error ("invalid journal entry priority: " ++ v)

/-- Handling of a _SOURCE_REALTIME_TIMESTAMP value in `entry_to_log_item`:
`v.parse::<u64>()` then `UNIX_EPOCH.checked_add(Duration::from_micros _)`,
which succeeds exactly when the result is representable (≤ `maxMicros`). -/
def parseTimestampField (maxMicros : Nat) (v : String) : Except String Int :=
  match parseRustNat 64 v with
  | none => .error ("failed to parse timestamp: " ++ v)
  | some n => if n ≤ maxMicros then .ok (n : Int) else .error "time overflow"

/-- The five mutable option-typed locals of `entry_to_log_item`. -/
structure RawFields where
  hostname : Option String := none
  unit : Option String := none
  message : Option String := none
  timestamp : Option Int := none
  priority : Option LogLevel := none
  deriving DecidableEq

/-- One iteration of the `for (k, v) in entry` loop of `entry_to_log_item`:
recognized keys update their field (a malformed PRIORITY or
_SOURCE_REALTIME_TIMESTAMP value aborts the whole mapping via `?`),
unrecognized keys are ignored. -/
def processPair (maxMicros : Nat) (f : RawFields) (kv : String × String) :
    Except String RawFields :=
  if kv.1 = "MESSAGE" then .ok { f with message := some kv.2 }
  else if kv.1 = "PRIORITY" then
    match parsePriority kv.2 with
    | .ok lvl => .ok { f with priority := some lvl }
    | .error c => .error c
  else if kv.1 = "_SYSTEMD_UNIT" then .ok { f with unit := some kv.2 }
  else if kv.1 = "_SOURCE_REALTIME_TIMESTAMP" then
    match parseTimestampField maxMicros kv.2 with
    | .ok t => .ok { f with timestamp := some t }
    | .error c => .error c
  else if kv.1 = "_HOSTNAME" then .ok { f with hostname := some kv.2 }
  else .ok f

/-- The final `LogItem` construction of `entry_to_log_item`: required fields
fail via `ok_or` (in the source's evaluation order hostname, priority,
message), `unit` defaults to "unknown" and `timestamp` to `now`. -/
def assemble (now : Int) (f : RawFields) : Except String LogItem :=
  match f.hostname with
  | none => .error "missing hostname field from jounral entry"
  | some hostname =>
    match f.priority with
    | none => .error "missing priority field from journal entry"
    | some level =>
      match f.message with
      | none => .error "missing message field from journal entry"
      | some message =>
        .ok { hostname := hostname, unit := f.unit.getD "unknown",
              timestamp := f.timestamp.getD now, level := level,
              message := message }

/-- `entry_to_log_item` of src/journal.rs. -/
def entry_to_log_item (now : Int) (maxMicros : Nat)
    (entry : List (String × String)) : Except String LogItem := do
  let f ← entry.foldlM (processPair maxMicros) {}
  assemble now f

/-- `TryRecvError` of src/lib.rs.  The opaque boxed cause is modelled as an
optional string. -/
inductive TryRecvError where
  | NotReady
  | Closed
  | Recoverable (context : String) (cause : Option String)
  | Fatal (context : String) (cause : Option String)
  deriving DecidableEq

/-- `JournalAdapter::try_recv` of src/journal.rs as a function of the
outcome of `journal.next_entry()`: an available entry is mapped (a mapping
failure becomes `Recoverable`), no entry is `NotReady`, and a journal read
error is `Fatal`. -/
def try_recv (nextEntry : Except String (Option (List (String × String))))
    (now : Int) (maxMicros : Nat) : Except TryRecvError LogItem :=
  match nextEntry with
  | .ok (some entry) =>
    match entry_to_log_item now maxMicros entry with
    | .ok item => .ok item
    | .error e => .error (.Recoverable e none)
  | .ok none => .error .NotReady
  | .error err => .error (.Fatal "failed to read from journal" (some err))

/-- Largest microsecond offset from the epoch representable by a 64-bit
`SystemTime` (`i64` seconds plus sub-second nanoseconds). -/
def sysTimeMaxMicros : Nat := 9223372036854775807 * 1000000 + 999999

/-- Lowercase hexadecimal digit, as used by serde_json's escape writer. -/
def hexDigit (n : Nat) : Char :=
  if n < 10 then Char.ofNat (48 + n) else Char.ofNat (87 + n)

/-- serde_json's escaping of one character inside a JSON string. -/
def escapeChar (c : Char) : String :=
  if c = '"' then "\\\""
  else if c = '\\' then "\\\\"
  else if c.toNat = 8 then "\\b"
  else if c.toNat = 9 then "\\t"
  else if c.toNat = 10 then "\\n"
  else if c.toNat = 12 then "\\f"
  else if c.toNat = 13 then "\\r"
  else if c.toNat < 32 then
    "\\u00" ++ String.singleton (hexDigit (c.toNat / 16)) ++
      String.singleton (hexDigit (c.toNat % 16))
  else String.singleton c

/-- serde_json's escaped rendering of a string body. -/
def jsonEscaped (s : String) : String :=
  s.data.foldl (fun acc c => acc ++ escapeChar c) ""

/-- The serialized payload of `LogqttClient::push`: a JSON object with
exactly the fields `message` and `timestamp`, in that (alphabetical,
BTreeMap) key order. -/
def jsonObject (message : String) (timestamp : Nat) : String :=
  "\x7b\"message\":\"" ++ jsonEscaped message ++ "\",\"timestamp\":" ++
    toString timestamp ++ "\x7d"

/-- `LogqttClient::push` of src/client.rs, returning the topic string and
payload handed to `client.publish`.  A timestamp before the epoch makes
`duration_since(UNIX_EPOCH)` fail, and 0 is substituted. -/
def LogqttClient.push (base_topic : String) (log_item : LogItem) :
    String × String :=
  let topic := base_topic ++ "/" ++ log_item.hostname ++ "/" ++
    log_item.unit ++ "/" ++ log_item.level.as_ref
  let timestamp : Nat :=
    if 0 ≤ log_item.timestamp then log_item.timestamp.toNat else 0
  (topic, jsonObject log_item.message timestamp)

instance instDecEqExcept {ε α : Type _} [DecidableEq ε] [DecidableEq α] :
    DecidableEq (Except ε α) := fun x y =>
  match x, y with
  | .ok a, .ok b =>
    if h : a = b then .isTrue (by simp [h]) else .isFalse (by simp [h])
  | .ok _, .error _ => .isFalse (by simp)
  | .error _, .ok _ => .isFalse (by simp)
  | .error e, .error e' =>
    if h : e = e' then .isTrue (by simp [h]) else .isFalse (by simp [h])

/-- What the foreground loop of src/bin/jqtt.rs observes in one iteration:
the shared shutdown flag, whether the connection-event thread has finished,
the `try_recv` outcome, and the outcome `client.push` would report. -/
structure LoopObs where
  shouldRun : Bool
  connFinished : Bool
  recv : Except TryRecvError LogItem
  pushResult : Except String Unit
  deriving DecidableEq

/-- The error a failing run of `main` returns. -/
inductive MainError where
  | recvFailed (e : TryRecvError)
  | pushFailed (e : String)
  deriving DecidableEq

/-- Outcome of `main`: `Ok(())` or `Err(e)`. -/
inductive ExitStatus where
  | success
  | failure (e : MainError)
  deriving DecidableEq

/-- What one iteration of the foreground loop does next. -/
inductive MainStep where
  | exitSuccess
  | exitFailure (e : MainError)
  | continueNow
  | continueAfterSleep (ms : Nat)
  deriving DecidableEq

/-- One iteration of the `while should_run.load()` loop of
src/bin/jqtt.rs: a cleared flag or a finished connection thread leaves the
loop (main then returns `Ok`), a received record is pushed (a push failure
is returned as an error), `NotReady` sleeps 100 ms, `Recoverable` is
logged and polling continues at once, and `Fatal` or `Closed` is returned
as an error. -/
def loopStep (o : LoopObs) : MainStep :=
  if o.shouldRun = false then .exitSuccess
  else if o.connFinished then .exitSuccess
  else
    match o.recv with
    | .ok _ =>
      match o.pushResult with
      | .ok _ => .continueNow
      | .error e => .exitFailure (.pushFailed e)
    | .error .NotReady => .continueAfterSleep 100
    | .error (.Recoverable _ _) => .continueNow
    | .error (.Fatal c cause) => .exitFailure (.recvFailed (.Fatal c cause))
    | .error .Closed => .exitFailure (.recvFailed .Closed)

/-- The foreground loop run over a finite trace of observations; `none`
means the trace ended with the loop still running. -/
def runMain : List LoopObs → Option ExitStatus
  | [] => none
  | o :: rest =>
    match loopStep o with
    | .exitSuccess => some .success
    | .exitFailure e => some (.failure e)
    | .continueNow => runMain rest
    | .continueAfterSleep _ => runMain rest

/-- Process exit code of `fn main() -> Result<(), _>`: 0 on `Ok`,
`ExitCode::FAILURE` on `Err`. -/
def exitCode : ExitStatus → Nat
  | .success => 0
  | .failure _ => 1

/-- Index of the field a journal entry key populates in
`entry_to_log_item`; `none` for unrecognized keys. -/
def keyIdx (k : String) : Option Nat :=
  if k = "MESSAGE" then some 0
  else if k = "PRIORITY" then some 1
  else if k = "_SYSTEMD_UNIT" then some 2
  else if k = "_SOURCE_REALTIME_TIMESTAMP" then some 3
  else if k = "_HOSTNAME" then some 4
  else none

/-- Whether `entry_to_log_item` recognizes a journal entry key. -/
def recognized (k : String) : Bool := (keyIdx k).isSome

/-- The recognized keys occurring in an entry, in order. -/
def recKeysOf (l : List (String × String)) : List String :=
  (l.map Prod.fst).filter recognized

/-- The single-field update a successfully processed recognized key
performs on the in-progress field set. -/
inductive FieldUpd where
  | msg (v : String)
  | pri (lvl : LogLevel)
  | unitName (v : String)
  | ts (t : Int)
  | host (v : String)
  deriving DecidableEq

/-- Apply a single-field update. -/
def FieldUpd.apply : FieldUpd → RawFields → RawFields
  | .msg v, f => { f with message := some v }
  | .pri lvl, f => { f with priority := some lvl }
  | .unitName v, f => { f with unit := some v }
  | .ts t, f => { f with timestamp := some t }
  | .host v, f => { f with hostname := some v }

/-- The field an update touches. -/
def FieldUpd.idx : FieldUpd → Nat
  | .msg _ => 0
  | .pri _ => 1
  | .unitName _ => 2
  | .ts _ => 3
  | .host _ => 4

/-- The state-independent effect of one key/value pair in
`entry_to_log_item`: an error, no update (unrecognized key), or a
single-field update. -/
def pairAction (maxMicros : Nat) (kv : String × String) :
    Except String (Option FieldUpd) :=
  if kv.1 = "MESSAGE" then .ok (some (.msg kv.2))
  else if kv.1 = "PRIORITY" then
    match parsePriority kv.2 with
    | .ok lvl => .ok (some (.pri lvl))
    | .error c => .error c
  else if kv.1 = "_SYSTEMD_UNIT" then .ok (some (.unitName kv.2))
  else if kv.1 = "_SOURCE_REALTIME_TIMESTAMP" then
    match parseTimestampField maxMicros kv.2 with
    | .ok t => .ok (some (.ts t))
    | .error c => .error c
  else if kv.1 = "_HOSTNAME" then .ok (some (.host kv.2))
  else .ok none

/-- Apply an optional single-field update. -/
def applyUpd : Option FieldUpd → RawFields → RawFields
  | none, f => f
  | some u, f => u.apply f

/-- Whether a `try_recv` outcome is a `Recoverable` error. -/
def isRecoverable : Except TryRecvError LogItem → Bool
  | .error (.Recoverable _ _) => true
  | _ => false

/-- Whether an iteration's observation makes the foreground loop abort
the process: a push failure on a received record, or a `Fatal` or
`Closed` poll result. -/
def abortCond (o : LoopObs) : Bool :=
  match o.recv, o.pushResult with
  | .ok _, .error _ => true
  | .error (.Fatal _ _), _ => true
  | .error .Closed, _ => true
  | _, _ => false

/-- The raw journal entry of the spec's end-to-end scenario, in the
(sorted) iteration order of the underlying map. -/
def scenarioEntry : List (String × String) :=
  [("MESSAGE", "disk full"), ("PRIORITY", "3"), ("_HOSTNAME", "host1"),
   ("_SOURCE_REALTIME_TIMESTAMP", "1700000000000000"),
   ("_SYSTEMD_UNIT", "diskd.service")]

/-- The normalized record the scenario should produce. -/
def scenarioItem : LogItem :=
  { hostname := "host1", unit := "diskd.service",
    timestamp := 1700000000000000, level := .Error, message := "disk full" }

/-! ## Basic lemmas about the `Except` monad and the field fold -/

@[simp] theorem except_bind_ok {ε α β : Type _} (a : α) (g : α → Except ε β) :
    (Except.ok a >>= g) = g a := rfl

@[simp] theorem except_bind_error {ε α β : Type _} (c : ε)
    (g : α → Except ε β) : ((Except.error c : Except ε α) >>= g) =
      Except.error c := rfl

@[simp] theorem except_toOption_ok {ε α : Type _} (a : α) :
    (Except.ok a : Except ε α).toOption = some a := rfl

@[simp] theorem except_toOption_error {ε α : Type _} (c : ε) :
    (Except.error c : Except ε α).toOption = none := rfl

theorem except_toOption_bind_congr {ε α β : Type _} {e1 e2 : Except ε α}
    (h : e1.toOption = e2.toOption) (g : α → Except ε β) :
    (e1 >>= g).toOption = (e2 >>= g).toOption := by
  cases e1 <;> cases e2 <;> simp_all [Except.toOption]

theorem processPair_eq_action (maxM : Nat) (f : RawFields)
    (kv : String × String) :
    processPair maxM f kv = (pairAction maxM kv).map (fun u => applyUpd u f) := by
  unfold processPair pairAction
  split_ifs <;> try rfl
  · cases parsePriority kv.2 <;> rfl
  · cases parseTimestampField maxM kv.2 <;> rfl

theorem processPair_of_action_error (maxM : Nat) (f : RawFields)
    (kv : String × String) (c : String) (h : pairAction maxM kv = .error c) :
    processPair maxM f kv = .error c := by
  rw [processPair_eq_action, h]; rfl

theorem processPair_of_action_ok (maxM : Nat) (f : RawFields)
    (kv : String × String) (u : Option FieldUpd)
    (h : pairAction maxM kv = .ok u) :
    processPair maxM f kv = .ok (applyUpd u f) := by
  rw [processPair_eq_action, h]; rfl

theorem processPair_error_indep (maxM : Nat) (f g : RawFields)
    (kv : String × String) (c : String)
    (h : processPair maxM f kv = .error c) :
    processPair maxM g kv = .error c := by
  rw [processPair_eq_action] at h ⊢
  cases ha : pairAction maxM kv with
  | error c2 => rw [ha] at h; simpa using h
  | ok u => rw [ha] at h; simp [Except.map] at h

theorem fieldUpd_comm (u1 u2 : FieldUpd) (h : u1.idx ≠ u2.idx)
    (f : RawFields) :
    u1.apply (u2.apply f) = u2.apply (u1.apply f) := by
  cases u1 <;> cases u2 <;> first
  | exact absurd rfl h
  | rfl

theorem applyUpd_comm (u1 u2 : Option FieldUpd)
    (h : ∀ a b, u1 = some a → u2 = some b → a.idx ≠ b.idx) (f : RawFields) :
    applyUpd u1 (applyUpd u2 f) = applyUpd u2 (applyUpd u1 f) := by
  cases u1 with
  | none => rfl
  | some a =>
    cases u2 with
    | none => rfl
    | some b => exact fieldUpd_comm a b (h a b rfl rfl) f

theorem pairAction_keyIdx (maxM : Nat) (kv : String × String) (u : FieldUpd)
    (h : pairAction maxM kv = .ok (some u)) : keyIdx kv.1 = some u.idx := by
  unfold pairAction at h
  unfold keyIdx
  split_ifs at h ⊢
  · simp only [Except.ok.injEq, Option.some.injEq] at h
    subst h; rfl
  · cases hp : parsePriority kv.2 <;> rw [hp] at h
    · exact absurd h (by simp)
    · simp only [Except.ok.injEq, Option.some.injEq] at h
      subst h; rfl
  · simp only [Except.ok.injEq, Option.some.injEq] at h
    subst h; rfl
  · cases hp : parseTimestampField maxM kv.2 <;> rw [hp] at h
    · exact absurd h (by simp)
    · simp only [Except.ok.injEq, Option.some.injEq] at h
      subst h; rfl
  · simp only [Except.ok.injEq, Option.some.injEq] at h
    subst h; rfl
  · simp at h

theorem keyIdx_inj (k1 k2 : String) (i : Nat) (h1 : keyIdx k1 = some i)
    (h2 : keyIdx k2 = some i) : k1 = k2 := by
  unfold keyIdx at h1 h2
  split_ifs at h1 h2 <;> simp_all <;> omega

theorem pairAction_unrecognized (maxM : Nat) (kv : String × String)
    (h : recognized kv.1 = false) : pairAction maxM kv = .ok none := by
  unfold recognized keyIdx at h
  unfold pairAction
  split_ifs at h ⊢ <;> simp_all

theorem recKeysOf_cons_nodup {x : String × String}
    {l : List (String × String)} (h : (recKeysOf (x :: l)).Nodup) :
    (recKeysOf l).Nodup := by
  unfold recKeysOf at h ⊢
  simp only [List.map_cons, List.filter_cons] at h
  split at h
  · exact (List.nodup_cons.mp h).2
  · exact h

@[simp] theorem except_pure_eq {ε α : Type _} (a : α) :
    (pure a : Except ε α) = .ok a := rfl

theorem processPair_ok_upd (maxM : Nat) (f f' : RawFields)
    (kv : String × String) (h : processPair maxM f kv = .ok f') :
    ∃ u, pairAction maxM kv = .ok u ∧ f' = applyUpd u f := by
  rw [processPair_eq_action] at h
  cases ha : pairAction maxM kv with
  | error c => rw [ha] at h; simp [Except.map] at h
  | ok u =>
    rw [ha] at h
    simp only [Except.map, Except.ok.injEq] at h
    exact ⟨u, rfl, h.symm⟩

theorem processPair_unrecognized (maxM : Nat) (f : RawFields)
    (kv : String × String) (h : recognized kv.1 = false) :
    processPair maxM f kv = .ok f :=
  processPair_of_action_ok maxM f kv none (pairAction_unrecognized maxM kv h)

/-- The fold over an entry, restricted to lists in which a given
recognized key does not occur, leaves that key's field unchanged. -/
theorem foldlM_preserve_proj {γ : Type} (maxM : Nat) (K : String) (i : Nat)
    (hKi : keyIdx K = some i) (proj : RawFields → γ)
    (hproj : ∀ (a : FieldUpd) (f : RawFields),
      a.idx ≠ i → proj (a.apply f) = proj f) :
    ∀ (l : List (String × String)) (f f' : RawFields),
      (∀ v, (K, v) ∉ l) →
      List.foldlM (processPair maxM) f l = .ok f' →
      proj f' = proj f := by
  intro l
  induction l with
  | nil =>
    intro f f' _ h
    simp only [List.foldlM_nil, except_pure_eq, Except.ok.injEq] at h
    rw [h]
  | cons kv l ih =>
    intro f f' hno h
    rw [List.foldlM_cons] at h
    cases hstep : processPair maxM f kv with
    | error c => rw [hstep] at h; simp at h
    | ok g =>
      rw [hstep, except_bind_ok] at h
      have htail : ∀ v, (K, v) ∉ l := fun v hv =>
        hno v (List.mem_cons_of_mem _ hv)
      have hkey : kv.1 ≠ K := by
        intro heq
        refine hno kv.2 ?_
        have hkv : (K, kv.2) = kv := by rw [← heq]
        rw [hkv]
        exact List.mem_cons_self _ _
      obtain ⟨u, hu, hg⟩ := processPair_ok_upd maxM f g kv hstep
      have hpre : proj g = proj f := by
        subst hg
        cases u with
        | none => rfl
        | some a =>
          refine hproj a f ?_
          intro hidx
          have hk := pairAction_keyIdx maxM kv a hu
          exact hkey (keyIdx_inj kv.1 K i (hidx ▸ hk) hKi)
      rw [ih g f' htail h, hpre]

/-- A key/value pair whose processing fails (for any state) forces the
whole fold over any entry containing it to fail. -/
theorem foldlM_error_of_mem (maxM : Nat) (kv : String × String) (c : String)
    (hbad : pairAction maxM kv = .error c) :
    ∀ (l : List (String × String)) (f : RawFields), kv ∈ l →
      ∃ c2, List.foldlM (processPair maxM) f l = .error c2 := by
  intro l
  induction l with
  | nil => intro f h; cases h
  | cons a l ih =>
    intro f hmem
    rw [List.foldlM_cons]
    rcases List.mem_cons.mp hmem with heq | htail
    · subst heq
      rw [processPair_of_action_error maxM f kv c hbad]
      exact ⟨c, rfl⟩
    · cases hstep : processPair maxM f a with
      | error c2 => exact ⟨c2, rfl⟩
      | ok g =>
        obtain ⟨c2, hc⟩ := ih g htail
        exact ⟨c2, hc⟩

/-- The fold's result, up to success, is invariant under permutation of
the entry, provided the recognized keys occur at most once. -/
theorem foldlM_perm (maxM : Nat) {l1 l2 : List (String × String)}
    (hp : l1.Perm l2) :
    ∀ f : RawFields, (recKeysOf l1).Nodup →
      (List.foldlM (processPair maxM) f l1).toOption =
      (List.foldlM (processPair maxM) f l2).toOption := by
  induction hp with
  | nil => intro f _; rfl
  | cons x hpm ih =>
    intro f hnd
    simp only [List.foldlM_cons]
    cases hx : processPair maxM f x with
    | error c => rfl
    | ok g =>
      simp only [except_bind_ok]
      exact ih g (recKeysOf_cons_nodup hnd)
  | swap x y t =>
    intro f hnd
    simp only [List.foldlM_cons]
    cases hyA : pairAction maxM y with
    | error cy =>
      have hy : ∀ g, processPair maxM g y = .error cy :=
        fun g => processPair_of_action_error maxM g y cy hyA
      cases hxA : pairAction maxM x with
      | error cx =>
        have hx : ∀ g, processPair maxM g x = .error cx :=
          fun g => processPair_of_action_error maxM g x cx hxA
        simp [hy, hx]
      | ok ux =>
        have hx : ∀ g, processPair maxM g x = .ok (applyUpd ux g) :=
          fun g => processPair_of_action_ok maxM g x ux hxA
        simp [hy, hx]
    | ok uy =>
      have hy : ∀ g, processPair maxM g y = .ok (applyUpd uy g) :=
        fun g => processPair_of_action_ok maxM g y uy hyA
      cases hxA : pairAction maxM x with
      | error cx =>
        have hx : ∀ g, processPair maxM g x = .error cx :=
          fun g => processPair_of_action_error maxM g x cx hxA
        simp [hy, hx]
      | ok ux =>
        have hx : ∀ g, processPair maxM g x = .ok (applyUpd ux g) :=
          fun g => processPair_of_action_ok maxM g x ux hxA
        have hcomm : applyUpd ux (applyUpd uy f) =
            applyUpd uy (applyUpd ux f) := by
          refine applyUpd_comm ux uy ?_ f
          intro a b ha hb heq
          subst ha
          subst hb
          have k1 := pairAction_keyIdx maxM x a hxA
          have k2 := pairAction_keyIdx maxM y b hyA
          have hk : x.1 = y.1 :=
            keyIdx_inj x.1 y.1 a.idx k1 (by rw [k2, heq])
          have rx : recognized x.1 = true := by
            unfold recognized; rw [k1]; rfl
          have ry : recognized y.1 = true := by
            unfold recognized; rw [k2]; rfl
          have hrec : recKeysOf (y :: x :: t) =
              y.1 :: x.1 :: recKeysOf t := by
            simp [recKeysOf, List.filter_cons, ry, rx]
          rw [hrec] at hnd
          exact (List.nodup_cons.mp hnd).1
            (by rw [← hk]; exact List.mem_cons_self _ _)
        simp only [hy, hx, except_bind_ok]
        rw [hcomm]
  | trans h1 h2 ih1 ih2 =>
    intro f hnd
    refine (ih1 f hnd).trans (ih2 f ?_)
    have hperm : (recKeysOf _).Perm (recKeysOf _) :=
      (h1.map Prod.fst).filter recognized
    exact hperm.nodup hnd

/-- Inserting a pair with an unrecognized key anywhere in an entry leaves
the fold unchanged. -/
theorem foldlM_insert_unrecognized (maxM : Nat) (k v : String)
    (hk : recognized k = false) :
    ∀ (l1 l2 : List (String × String)) (f : RawFields),
      List.foldlM (processPair maxM) f (l1 ++ (k, v) :: l2) =
      List.foldlM (processPair maxM) f (l1 ++ l2) := by
  intro l1
  induction l1 with
  | nil =>
    intro l2 f
    simp only [List.nil_append, List.foldlM_cons]
    rw [processPair_unrecognized maxM f (k, v) hk, except_bind_ok]
  | cons a l1 ih =>
    intro l2 f
    simp only [List.cons_append, List.foldlM_cons]
    cases ha : processPair maxM f a with
    | error c => rfl
    | ok g =>
      simp only [except_bind_ok]
      exact ih l2 g

/-- `entry_to_log_item` is the field fold followed by record assembly. -/
theorem entry_eq_bind (now : Int) (maxM : Nat)
    (l : List (String × String)) :
    entry_to_log_item now maxM l =
      (List.foldlM (processPair maxM) {} l) >>= assemble now := rfl

theorem assemble_ok_inv (now : Int) (f : RawFields) (item : LogItem)
    (h : assemble now f = .ok item) :
    f.hostname = some item.hostname ∧ f.priority = some item.level ∧
    f.message = some item.message ∧ item.unit = f.unit.getD "unknown" ∧
    item.timestamp = f.timestamp.getD now := by
  unfold assemble at h
  cases hh : f.hostname with
  | none => rw [hh] at h; simp at h
  | some hostv =>
    rw [hh] at h
    cases hp : f.priority with
    | none => rw [hp] at h; simp at h
    | some lvl =>
      rw [hp] at h
      cases hm : f.message with
      | none => rw [hm] at h; simp at h
      | some msg =>
        rw [hm] at h
        simp only [Except.ok.injEq] at h
        subst h
        exact ⟨rfl, rfl, rfl, rfl, rfl⟩

theorem assemble_error_of_missing (now : Int) (f : RawFields)
    (h : f.hostname = none ∨ f.priority = none ∨ f.message = none) :
    (assemble now f).toOption = none := by
  unfold assemble
  cases hh : f.hostname with
  | none => rfl
  | some hostv =>
    cases hp : f.priority with
    | none => rfl
    | some lvl =>
      cases hm : f.message with
      | none => rfl
      | some msg => rcases h with h | h | h <;> simp_all

theorem try_recv_of_entry_error (now : Int) (maxM : Nat)
    (l : List (String × String)) (c : String)
    (h : entry_to_log_item now maxM l = .error c) :
    try_recv (.ok (some l)) now maxM = .error (.Recoverable c none) := by
  have hre : try_recv (.ok (some l)) now maxM =
      match entry_to_log_item now maxM l with
      | .ok item => .ok item
      | .error e => .error (.Recoverable e none) := rfl
  rw [hre, h]

theorem entry_error_of_toOption_none (now : Int) (maxM : Nat)
    (l : List (String × String))
    (h : (entry_to_log_item now maxM l).toOption = none) :
    ∃ c, entry_to_log_item now maxM l = .error c := by
  cases he : entry_to_log_item now maxM l with
  | error c => exact ⟨c, rfl⟩
  | ok item => rw [he] at h; simp at h

theorem isRecoverable_of_toOption_none (now : Int) (maxM : Nat)
    (l : List (String × String))
    (h : (entry_to_log_item now maxM l).toOption = none) :
    isRecoverable (try_recv (.ok (some l)) now maxM) = true := by
  obtain ⟨c, hc⟩ := entry_error_of_toOption_none now maxM l h
  rw [try_recv_of_entry_error now maxM l c hc]
  rfl

/-! ## Claim theorems -/

/-- C1: the scenario raw entry (MESSAGE "disk full", PRIORITY "3",
_SYSTEMD_UNIT "diskd.service", _HOSTNAME "host1",
_SOURCE_REALTIME_TIMESTAMP "1700000000000000") maps successfully to the
normalized record (hostname "host1", unit "diskd.service", level Error,
message "disk full", timestamp epoch + 1700000000000000 µs), and pushing
that record with base topic "logqttv1" produces the topic
"logqttv1/host1/diskd.service/error" and the JSON payload with message
"disk full" and timestamp 1700000000000000, for any wall-clock value
`now`. -/
theorem scenario_end_to_end (now : Int) :
    entry_to_log_item now sysTimeMaxMicros scenarioEntry = .ok scenarioItem ∧
    LogqttClient.push "logqttv1" scenarioItem =
      ("logqttv1/host1/diskd.service/error",
       "\x7b\"message\":\"disk full\",\"timestamp\":1700000000000000\x7d") :=
  ⟨rfl, rfl⟩

/-- C5: for every normalized record, the pushed topic is exactly
base_topic / hostname / unit / lowercase level name; it does not depend
on the record's message or timestamp, and the level name is always one of
the eight lowercase severity names. -/
theorem push_topic_pure (base h u : String) (ts1 ts2 : Int)
    (lvl : LogLevel) (m1 m2 : String) :
    (LogqttClient.push base ⟨h, u, ts1, lvl, m1⟩).1 =
      base ++ "/" ++ h ++ "/" ++ u ++ "/" ++ lvl.as_ref ∧
    (LogqttClient.push base ⟨h, u, ts1, lvl, m1⟩).1 =
      (LogqttClient.push base ⟨h, u, ts2, lvl, m2⟩).1 ∧
    lvl.as_ref ∈ ["emergency", "alert", "critical", "error", "warning",
      "notice", "info", "debug"] := by
  refine ⟨rfl, rfl, ?_⟩
  cases lvl <;> simp [LogLevel.as_ref]

/-- C6: a record whose timestamp predates the epoch is serialized with
payload timestamp 0 (the publish is not failed), and a record at or after
the epoch is serialized with its exact microsecond offset. -/
theorem push_timestamp_clamp (base : String) (item : LogItem) :
    (item.timestamp < 0 →
      (LogqttClient.push base item).2 = jsonObject item.message 0) ∧
    (0 ≤ item.timestamp →
      (LogqttClient.push base item).2 =
        jsonObject item.message item.timestamp.toNat ∧
      (item.timestamp.toNat : Int) = item.timestamp) := by
  constructor
  · intro h
    have hneg : ¬ (0 ≤ item.timestamp) := not_le.mpr h
    simp [LogqttClient.push, hneg]
  · intro h
    exact ⟨by simp [LogqttClient.push, h], Int.toNat_of_nonneg h⟩

/-- Witness for C6 at concrete records dated before and after the epoch. -/
theorem push_timestamp_clamp_witness :
    (LogqttClient.push "t" ⟨"h", "u", -5, .Info, "m"⟩).2 =
      jsonObject "m" 0 ∧
    (LogqttClient.push "t" ⟨"h", "u", 7, .Info, "m"⟩).2 =
      jsonObject "m" 7 := by
  constructor
  · exact (push_timestamp_clamp "t" ⟨"h", "u", -5, .Info, "m"⟩).1 (by decide)
  · exact ((push_timestamp_clamp "t" ⟨"h", "u", 7, .Info, "m"⟩).2
      (by decide)).1

/-- C7: in an iteration observed while running (shutdown flag set,
connection thread alive), NotReady sleeps 100 ms and the run continues,
Recoverable continues immediately with no sleep, and Fatal or Closed
stops the loop with the whole run failing with that error. -/
theorem loop_iteration_dispositions (o : LoopObs)
    (h1 : o.shouldRun = true) (h2 : o.connFinished = false) :
    (o.recv = .error .NotReady →
      loopStep o = .continueAfterSleep 100 ∧
      ∀ rest, runMain (o :: rest) = runMain rest) ∧
    (∀ c cs, o.recv = .error (.Recoverable c cs) →
      loopStep o = .continueNow ∧
      ∀ rest, runMain (o :: rest) = runMain rest) ∧
    (∀ c cs, o.recv = .error (.Fatal c cs) →
      loopStep o = .exitFailure (.recvFailed (.Fatal c cs)) ∧
      ∀ rest, runMain (o :: rest) =
        some (.failure (.recvFailed (.Fatal c cs)))) ∧
    (o.recv = .error .Closed →
      loopStep o = .exitFailure (.recvFailed .Closed) ∧
      ∀ rest, runMain (o :: rest) =
        some (.failure (.recvFailed .Closed))) := by
  refine ⟨?_, ?_, ?_, ?_⟩
  · intro hr
    refine ⟨by simp [loopStep, h1, h2, hr], ?_⟩
    intro rest
    simp [runMain, loopStep, h1, h2, hr]
  · intro c cs hr
    refine ⟨by simp [loopStep, h1, h2, hr], ?_⟩
    intro rest
    simp [runMain, loopStep, h1, h2, hr]
  · intro c cs hr
    refine ⟨by simp [loopStep, h1, h2, hr], ?_⟩
    intro rest
    simp [runMain, loopStep, h1, h2, hr]
  · intro hr
    refine ⟨by simp [loopStep, h1, h2, hr], ?_⟩
    intro rest
    simp [runMain, loopStep, h1, h2, hr]

/-- Witness for C7 at concrete iteration observations. -/
theorem loop_iteration_dispositions_witness :
    loopStep ⟨true, false, .error .NotReady, .ok ()⟩ =
      .continueAfterSleep 100 ∧
    loopStep ⟨true, false, .error (.Recoverable "c" none), .ok ()⟩ =
      .continueNow ∧
    runMain [⟨true, false, .error (.Fatal "c" none), .ok ()⟩] =
      some (.failure (.recvFailed (.Fatal "c" none))) ∧
    runMain [⟨true, false, .error .Closed, .ok ()⟩] =
      some (.failure (.recvFailed .Closed)) := by
  refine ⟨?_, ?_, ?_, ?_⟩
  · exact ((loop_iteration_dispositions _ rfl rfl).1 rfl).1
  · exact ((loop_iteration_dispositions _ rfl rfl).2.1 "c" none rfl).1
  · exact ((loop_iteration_dispositions _ rfl rfl).2.2.1 "c" none rfl).2 []
  · exact ((loop_iteration_dispositions _ rfl rfl).2.2.2 rfl).2 []

/-- C8: when the _SYSTEMD_UNIT key is absent from the raw entry and
mapping succeeds, the record's unit is exactly the sentinel "unknown". -/
theorem missing_unit_defaults_unknown (now : Int) (maxM : Nat)
    (l : List (String × String)) (item : LogItem)
    (hno : ∀ v, ("_SYSTEMD_UNIT", v) ∉ l)
    (hok : entry_to_log_item now maxM l = .ok item) :
    item.unit = "unknown" := by
  rw [entry_eq_bind] at hok
  cases hfold : List.foldlM (processPair maxM) {} l with
  | error c => rw [hfold] at hok; simp at hok
  | ok f =>
    rw [hfold, except_bind_ok] at hok
    have hunit : f.unit = ({} : RawFields).unit :=
      foldlM_preserve_proj maxM "_SYSTEMD_UNIT" 2 rfl RawFields.unit
        (fun a g hne => by cases a <;> first | rfl | exact absurd rfl hne)
        l {} f hno hfold
    have hinv := assemble_ok_inv now f item hok
    rw [hinv.2.2.2.1, hunit]
    rfl

/-- Witness for C8 at a concrete entry with no _SYSTEMD_UNIT key. -/
theorem missing_unit_defaults_unknown_witness :
    ({ hostname := "h", unit := "unknown", timestamp := 0, level := .Error,
       message := "m" } : LogItem).unit = "unknown" := by
  refine missing_unit_defaults_unknown 0 10
    [("MESSAGE", "m"), ("PRIORITY", "3"), ("_HOSTNAME", "h")] _ ?_ rfl
  intro v hv
  simp at hv

/-- C2: the PRIORITY integer is mapped through the fixed ordinal table —
for integers 0–7 the level is the n-th entry of (Emergency, Alert,
Critical, Error, Warning, Notice, Info, Debug), a table of eight distinct
levels covering every severity; an integer outside 0–7 makes priority
parsing fail, and the mapping of an entry carrying such a priority fails
with a Recoverable error, never a default level. -/
theorem priority_ordinal_table :
    (∀ v n, parseRustNat 64 v = some n → n < 8 →
      parsePriority v = .ok (systemd_priority_rankings.getD n .Emergency)) ∧
    (∀ v n, parseRustNat 64 v = some n → 8 ≤ n →
      parsePriority v = .error ("invalid journal entry priority: " ++ v)) ∧
    systemd_priority_rankings.length = 8 ∧
    systemd_priority_rankings.Nodup ∧
    (∀ lvl : LogLevel, lvl ∈ systemd_priority_rankings) ∧
    (∀ (now : Int) (maxM : Nat) (l : List (String × String)) v n,
      ("PRIORITY", v) ∈ l → parseRustNat 64 v = some n → 8 ≤ n →
      (entry_to_log_item now maxM l).toOption = none ∧
      isRecoverable (try_recv (.ok (some l)) now maxM) = true) := by
  have hbad : ∀ v n, parseRustNat 64 v = some n → 8 ≤ n →
      parsePriority v = .error ("invalid journal entry priority: " ++ v) := by
    intro v n hv hn
    have hlen : systemd_priority_rankings.length = 8 := rfl
    have hge : systemd_priority_rankings.get? n = none := by
      rw [List.get?_eq_none]
      omega
    simp only [parsePriority, hv, hge]
  refine ⟨?_, hbad, rfl, by decide, ?_, ?_⟩
  · intro v n hv hn
    unfold parsePriority
    rw [hv]
    interval_cases n <;> rfl
  · intro lvl
    cases lvl <;> decide
  · intro now maxM l v n hmem hv hn
    have hact : pairAction maxM ("PRIORITY", v) =
        .error ("invalid journal entry priority: " ++ v) := by
      simp [pairAction, hbad v n hv hn]
    obtain ⟨c2, hc⟩ := foldlM_error_of_mem maxM ("PRIORITY", v) _ hact l {} hmem
    have hnone : (entry_to_log_item now maxM l).toOption = none := by
      rw [entry_eq_bind, hc]; rfl
    exact ⟨hnone, isRecoverable_of_toOption_none now maxM l hnone⟩

/-- Witness for C2 at concrete priority values 3 (in range) and 9
(out of range). -/
theorem priority_ordinal_table_witness :
    parsePriority "3" = .ok .Error ∧
    parsePriority "9" = .error ("invalid journal entry priority: " ++ "9") ∧
    (entry_to_log_item 0 10 [("PRIORITY", "9")]).toOption = none := by
  refine ⟨?_, ?_, ?_⟩
  · exact priority_ordinal_table.1 "3" 3 rfl (by decide)
  · exact priority_ordinal_table.2.1 "9" 9 rfl (by decide)
  · exact (priority_ordinal_table.2.2.2.2.2 0 10 [("PRIORITY", "9")] "9" 9
      (List.mem_singleton.mpr rfl) rfl (by decide)).1

/-- C3: an entry missing the hostname key, missing the message key, or
carrying no valid priority value maps to an error: no normalized record
is constructed (no field is fabricated), and the adapter surfaces the
failure as a Recoverable error, never Fatal and never a panic. -/
theorem missing_required_field_recoverable (now : Int) (maxM : Nat)
    (l : List (String × String))
    (h : (∀ v, ("_HOSTNAME", v) ∉ l) ∨ (∀ v, ("MESSAGE", v) ∉ l) ∨
      (∀ v lvl, ("PRIORITY", v) ∈ l → parsePriority v ≠ .ok lvl)) :
    (entry_to_log_item now maxM l).toOption = none ∧
    isRecoverable (try_recv (.ok (some l)) now maxM) = true := by
  have hnone : (entry_to_log_item now maxM l).toOption = none := by
    rw [entry_eq_bind]
    cases hfold : List.foldlM (processPair maxM) {} l with
    | error c => rfl
    | ok f =>
      simp only [except_bind_ok]
      apply assemble_error_of_missing
      rcases h with h | h | h
      · left
        exact foldlM_preserve_proj maxM "_HOSTNAME" 4 rfl RawFields.hostname
          (fun a g hne => by cases a <;> first | rfl | exact absurd rfl hne)
          l {} f h hfold
      · right; right
        exact foldlM_preserve_proj maxM "MESSAGE" 0 rfl RawFields.message
          (fun a g hne => by cases a <;> first | rfl | exact absurd rfl hne)
          l {} f h hfold
      · right; left
        by_cases hex : ∃ v, ("PRIORITY", v) ∈ l
        · obtain ⟨v, hv⟩ := hex
          cases hp : parsePriority v with
          | ok lvl => exact absurd hp (h v lvl hv)
          | error c =>
            have hact : pairAction maxM ("PRIORITY", v) = .error c := by
              simp [pairAction, hp]
            obtain ⟨c2, hc⟩ :=
              foldlM_error_of_mem maxM ("PRIORITY", v) c hact l {} hv
            rw [hfold] at hc
            exact absurd hc (by simp)
        · push_neg at hex
          exact foldlM_preserve_proj maxM "PRIORITY" 1 rfl RawFields.priority
            (fun a g hne => by cases a <;> first | rfl | exact absurd rfl hne)
            l {} f (fun v => hex v) hfold
  exact ⟨hnone, isRecoverable_of_toOption_none now maxM l hnone⟩

/-- Witness for C3 at a concrete entry with no _HOSTNAME key. -/
theorem missing_required_field_recoverable_witness :
    (entry_to_log_item 0 10
      [("MESSAGE", "m"), ("PRIORITY", "3")]).toOption = none ∧
    isRecoverable (try_recv
      (.ok (some [("MESSAGE", "m"), ("PRIORITY", "3")])) 0 10) = true := by
  refine missing_required_field_recoverable 0 10 _ (Or.inl ?_)
  intro v hv
  simp at hv

/-- C10: timestamp extraction is total — every _SOURCE_REALTIME_TIMESTAMP
value either parses as an unsigned 64-bit integer whose microseconds fit
the system-time representation, yielding exactly epoch + n µs, or the
entry's mapping fails with a Recoverable error: an unparseable value
(including any negative number) yields the parse-failure context, and a
value exceeding the representable bound yields the context
"time overflow" rather than a clamped or wrapped timestamp. -/
theorem timestamp_extraction_total (now : Int) (maxM : Nat) (v : String) :
    (∀ n, parseRustNat 64 v = some n → n ≤ maxM →
      parseTimestampField maxM v = .ok (n : Int) ∧ 0 ≤ (n : Int)) ∧
    (∀ n, parseRustNat 64 v = some n → maxM < n →
      parseTimestampField maxM v = .error "time overflow") ∧
    (parseRustNat 64 v = none →
      parseTimestampField maxM v =
        .error ("failed to parse timestamp: " ++ v)) ∧
    (∀ s : String, parseRustNat 64 ("-" ++ s) = none) ∧
    (∀ c, parseTimestampField maxM v = .error c →
      (entry_to_log_item now maxM
        [("_SOURCE_REALTIME_TIMESTAMP", v)]).toOption = none ∧
      isRecoverable (try_recv
        (.ok (some [("_SOURCE_REALTIME_TIMESTAMP", v)])) now maxM) =
        true) := by
  refine ⟨?_, ?_, ?_, ?_, ?_⟩
  · intro n hn hle
    refine ⟨?_, Int.natCast_nonneg n⟩
    simp [parseTimestampField, hn, hle]
  · intro n hn hgt
    simp [parseTimestampField, hn, not_le.mpr hgt]
  · intro hn
    simp [parseTimestampField, hn]
  · intro s
    cases s with
    | mk data => rfl
  · intro c hc
    have hact : pairAction maxM ("_SOURCE_REALTIME_TIMESTAMP", v) =
        .error c := by
      simp [pairAction, hc]
    obtain ⟨c2, hfold⟩ := foldlM_error_of_mem maxM
      ("_SOURCE_REALTIME_TIMESTAMP", v) c hact
      [("_SOURCE_REALTIME_TIMESTAMP", v)] {} (List.mem_singleton.mpr rfl)
    have hnone : (entry_to_log_item now maxM
        [("_SOURCE_REALTIME_TIMESTAMP", v)]).toOption = none := by
      rw [entry_eq_bind, hfold]; rfl
    exact ⟨hnone, isRecoverable_of_toOption_none now maxM _ hnone⟩

/-- Witness for C10 at a parseable value, an overflowing value, an
unparseable value, and a negative value (bound 10 µs). -/
theorem timestamp_extraction_total_witness :
    parseTimestampField 10 "5" = .ok ((5 : Nat) : Int) ∧
    parseTimestampField 10 "20" = .error "time overflow" ∧
    parseTimestampField 10 "abc" =
      .error ("failed to parse timestamp: " ++ "abc") ∧
    parseRustNat 64 ("-" ++ "1") = none ∧
    isRecoverable (try_recv
      (.ok (some [("_SOURCE_REALTIME_TIMESTAMP", "abc")])) 0 10) = true := by
  refine ⟨?_, ?_, ?_, ?_, ?_⟩
  · exact ((timestamp_extraction_total 0 10 "5").1 5 rfl (by decide)).1
  · exact (timestamp_extraction_total 0 10 "20").2.1 20 rfl (by decide)
  · exact (timestamp_extraction_total 0 10 "abc").2.2.1 rfl
  · exact (timestamp_extraction_total 0 10 "abc").2.2.2.1 "1"
  · exact ((timestamp_extraction_total 0 10 "abc").2.2.2.2
      ("failed to parse timestamp: " ++ "abc")
      ((timestamp_extraction_total 0 10 "abc").2.2.1 rfl)).2

theorem loopStep_exitSuccess_inv (o : LoopObs)
    (h : loopStep o = .exitSuccess) :
    o.shouldRun = false ∨ o.connFinished = true := by
  unfold loopStep at h
  by_cases hs : o.shouldRun = false
  · exact Or.inl hs
  · rw [if_neg hs] at h
    by_cases hc : o.connFinished = true
    · exact Or.inr hc
    · rw [if_neg hc] at h
      exfalso
      cases hrecv : o.recv with
      | ok item =>
        rw [hrecv] at h
        cases hpush : o.pushResult <;> rw [hpush] at h <;> cases h
      | error e =>
        rw [hrecv] at h
        cases e <;> cases h

theorem loopStep_exitFailure_inv (o : LoopObs) (e : MainError)
    (h : loopStep o = .exitFailure e) :
    o.shouldRun = true ∧ o.connFinished = false ∧ abortCond o = true := by
  unfold loopStep at h
  by_cases hs : o.shouldRun = false
  · rw [if_pos hs] at h; cases h
  · rw [if_neg hs] at h
    by_cases hc : o.connFinished = true
    · rw [if_pos hc] at h; cases h
    · rw [if_neg hc] at h
      have hs' : o.shouldRun = true := by
        revert hs; cases o.shouldRun <;> simp
      have hc' : o.connFinished = false := by
        revert hc; cases o.connFinished <;> simp
      refine ⟨hs', hc', ?_⟩
      unfold abortCond
      cases hrecv : o.recv with
      | ok item =>
        rw [hrecv] at h
        cases hpush : o.pushResult with
        | error e2 => rfl
        | ok u => rw [hpush] at h; cases h
      | error err =>
        rw [hrecv] at h
        cases err <;> first | rfl | cases h

/-- C9 counterexample: two permutations of the same raw entry with
distinct recognized keys (an unparseable PRIORITY and an unparseable
_SOURCE_REALTIME_TIMESTAMP) map to different results — the iteration
order decides which error context is reported, so the mapping result is
not literally unchanged under permutation. -/
theorem mapping_error_order_dependent :
    List.Perm [("PRIORITY", "x"), ("_SOURCE_REALTIME_TIMESTAMP", "y")]
      [("_SOURCE_REALTIME_TIMESTAMP", "y"), ("PRIORITY", "x")] ∧
    (recKeysOf
      [("PRIORITY", "x"), ("_SOURCE_REALTIME_TIMESTAMP", "y")]).Nodup ∧
    entry_to_log_item 0 10
      [("PRIORITY", "x"), ("_SOURCE_REALTIME_TIMESTAMP", "y")] =
      .error "failed to parse priority: x" ∧
    entry_to_log_item 0 10
      [("_SOURCE_REALTIME_TIMESTAMP", "y"), ("PRIORITY", "x")] =
      .error "failed to parse timestamp: y" ∧
    entry_to_log_item 0 10
      [("PRIORITY", "x"), ("_SOURCE_REALTIME_TIMESTAMP", "y")] ≠
    entry_to_log_item 0 10
      [("_SOURCE_REALTIME_TIMESTAMP", "y"), ("PRIORITY", "x")] := by
  refine ⟨List.Perm.swap _ _ _, by decide, by decide, by decide, by decide⟩

/-- C9 (amended): unrecognized keys are ignored — inserting a pair with
an unrecognized key anywhere leaves the mapping result literally
unchanged — and, for entries whose recognized keys are distinct, whether
mapping succeeds and the record produced on success are invariant under
permutation of the entry's pairs; only the error context of a failed
mapping may depend on the order (and the raw entry is an ordered map, so
only its sorted iteration order actually occurs). -/
theorem mapping_order_invariance :
    (∀ (now : Int) (maxM : Nat) (l1 l2 : List (String × String))
        (k v : String), recognized k = false →
      entry_to_log_item now maxM (l1 ++ (k, v) :: l2) =
        entry_to_log_item now maxM (l1 ++ l2)) ∧
    (∀ (now : Int) (maxM : Nat) (l1 l2 : List (String × String)),
      l1.Perm l2 → (recKeysOf l1).Nodup →
      (entry_to_log_item now maxM l1).toOption =
        (entry_to_log_item now maxM l2).toOption) := by
  constructor
  · intro now maxM l1 l2 k v hk
    rw [entry_eq_bind, entry_eq_bind,
      foldlM_insert_unrecognized maxM k v hk]
  · intro now maxM l1 l2 hp hnd
    rw [entry_eq_bind, entry_eq_bind]
    exact except_toOption_bind_congr (foldlM_perm maxM hp {} hnd)
      (assemble now)

/-- Witness for the amended C9: inserting an unrecognized key and
swapping two recognized keys at concrete entries. -/
theorem mapping_order_invariance_witness :
    entry_to_log_item 0 10
      ([("MESSAGE", "m")] ++ ("FOO", "bar") :: [("_HOSTNAME", "h")]) =
      entry_to_log_item 0 10 ([("MESSAGE", "m")] ++ [("_HOSTNAME", "h")]) ∧
    (entry_to_log_item 0 10
      [("MESSAGE", "m"), ("_HOSTNAME", "h")]).toOption =
      (entry_to_log_item 0 10
        [("_HOSTNAME", "h"), ("MESSAGE", "m")]).toOption := by
  constructor
  · exact mapping_order_invariance.1 0 10 [("MESSAGE", "m")]
      [("_HOSTNAME", "h")] "FOO" "bar" (by decide)
  · exact mapping_order_invariance.2 0 10 _ _
      (List.Perm.swap ("_HOSTNAME", "h") ("MESSAGE", "m") []) (by decide)

/-- C4 counterexample: when the connection-event thread has finished but
no signal was received (the shutdown flag still set to run), the loop
breaks and main returns success — the process exits with status zero on a
condition other than signal-triggered graceful shutdown. -/
theorem exit_zero_without_signal :
    runMain [⟨true, true, .error .NotReady, .ok ()⟩] = some .success ∧
    exitCode .success = 0 ∧
    (⟨true, true, .error .NotReady, .ok ()⟩ : LoopObs).shouldRun = true ∧
    (⟨true, true, .error .NotReady, .ok ()⟩ : LoopObs).connFinished =
      true :=
  ⟨rfl, rfl, rfl, rfl⟩

/-- C4 (amended): the process exits non-zero exactly when an iteration
observed while running (flag set, connection thread alive) carries a
Fatal or Closed poll result or a push failure; it exits zero only when
the shutdown flag was cleared by a signal or the connection-event thread
had finished. -/
theorem exit_status_characterization :
    (∀ (t : List LoopObs) (r : ExitStatus), runMain t = some r →
      (r = .success → exitCode r = 0 ∧
        ∃ o ∈ t, o.shouldRun = false ∨ o.connFinished = true) ∧
      (∀ e, r = .failure e → exitCode r ≠ 0 ∧
        ∃ o ∈ t, o.shouldRun = true ∧ o.connFinished = false ∧
          abortCond o = true)) ∧
    (∀ (o : LoopObs) (rest : List LoopObs), o.shouldRun = true →
      o.connFinished = false → abortCond o = true →
      ∃ e, runMain (o :: rest) = some (.failure e)) := by
  constructor
  · intro t
    induction t with
    | nil => intro r hr; simp [runMain] at hr
    | cons o rest ih =>
      intro r hr
      have hrun : runMain (o :: rest) =
          match loopStep o with
          | .exitSuccess => some .success
          | .exitFailure e => some (.failure e)
          | .continueNow => runMain rest
          | .continueAfterSleep _ => runMain rest := rfl
      rw [hrun] at hr
      cases hstep : loopStep o with
      | exitSuccess =>
        rw [hstep] at hr
        simp only [Option.some.injEq] at hr
        subst hr
        constructor
        · intro _
          exact ⟨rfl, o, List.mem_cons_self o rest,
            loopStep_exitSuccess_inv o hstep⟩
        · intro e he
          cases he
      | exitFailure e0 =>
        rw [hstep] at hr
        simp only [Option.some.injEq] at hr
        subst hr
        obtain ⟨h1, h2, h3⟩ := loopStep_exitFailure_inv o e0 hstep
        constructor
        · intro hsuc
          cases hsuc
        · intro e _
          exact ⟨by simp [exitCode], o, List.mem_cons_self o rest,
            h1, h2, h3⟩
      | continueNow =>
        rw [hstep] at hr
        have hrec := ih r hr
        constructor
        · intro hsuc
          obtain ⟨hz, o2, hmem, hcond⟩ := hrec.1 hsuc
          exact ⟨hz, o2, List.mem_cons_of_mem o hmem, hcond⟩
        · intro e he
          obtain ⟨hz, o2, hmem, hcond⟩ := hrec.2 e he
          exact ⟨hz, o2, List.mem_cons_of_mem o hmem, hcond⟩
      | continueAfterSleep ms =>
        rw [hstep] at hr
        have hrec := ih r hr
        constructor
        · intro hsuc
          obtain ⟨hz, o2, hmem, hcond⟩ := hrec.1 hsuc
          exact ⟨hz, o2, List.mem_cons_of_mem o hmem, hcond⟩
        · intro e he
          obtain ⟨hz, o2, hmem, hcond⟩ := hrec.2 e he
          exact ⟨hz, o2, List.mem_cons_of_mem o hmem, hcond⟩
  · intro o rest h1 h2 h3
    unfold abortCond at h3
    cases hrecv : o.recv with
    | ok item =>
      rw [hrecv] at h3
      cases hpush : o.pushResult with
      | ok _ => rw [hpush] at h3; cases h3
      | error e =>
        refine ⟨.pushFailed e, ?_⟩
        have hstep : loopStep o = .exitFailure (.pushFailed e) := by
          simp [loopStep, h1, h2, hrecv, hpush]
        simp [runMain, hstep]
    | error err =>
      rw [hrecv] at h3
      cases err with
      | NotReady => cases h3
      | Closed =>
        refine ⟨.recvFailed .Closed, ?_⟩
        have hstep : loopStep o = .exitFailure (.recvFailed .Closed) := by
          simp [loopStep, h1, h2, hrecv]
        simp [runMain, hstep]
      | Recoverable c cs => cases h3
      | Fatal c cs =>
        refine ⟨.recvFailed (.Fatal c cs), ?_⟩
        have hstep : loopStep o =
            .exitFailure (.recvFailed (.Fatal c cs)) := by
          simp [loopStep, h1, h2, hrecv]
        simp [runMain, hstep]

/-- Witness for the amended C4: a failing exit carries a non-zero status
and a success exit carries status zero, at concrete traces. -/
theorem exit_status_characterization_witness :
    exitCode (.failure (.recvFailed .Closed)) ≠ 0 ∧
    exitCode .success = 0 := by
  constructor
  · exact ((exit_status_characterization.1
      [⟨true, false, .error .Closed, .ok ()⟩]
      (.failure (.recvFailed .Closed)) rfl).2 (.recvFailed .Closed)
      rfl).1
  · exact ((exit_status_characterization.1
      [⟨false, false, .error .NotReady, .ok ()⟩] .success rfl).1 rfl).1

end Logqtt
